import Mathlib

/-
  Shallow embedding of the SecureRoll contract (src/contracts/SecureRoll.sol).

  Encrypted values (euint8, euint64, ebool) are modelled by their plaintext
  contents: the FHE operations used by the contract (add, rem, gt, eq, select,
  constant lift) are total functions on the underlying integers, with euint64
  addition wrapping modulo 2^64 and euint8 values reduced modulo 2^256/2^8 as
  in the TFHE semantics.  FHE.randEuint8 is modelled by passing the drawn byte
  as an explicit argument; FHE.fromExternal with a proof is modelled by an
  `Option Nat` argument (`none` = the proof does not validate, `some g` = the
  ingested 8-bit plaintext).  FHE.allowThis / FHE.allow calls are recorded in
  an append-only grants log.  A reverting call is an `Except.error`; the EVM
  semantics of revert (state rolled back wholesale) is captured by `exec`.
-/

namespace SecureRoll

abbrev Principal := Nat

/-- `1 ether` in wei, the divisor in `quotePoints`. -/
def oneEther : Nat := 10 ^ 18

/-- `uint64 public constant POINTS_PER_ETH = 100_000`. -/
def POINTS_PER_ETH : Nat := 100000

/-- `uint64 public constant WIN_REWARD = 10_000`. -/
def WIN_REWARD : Nat := 10000

/-- Modulus of euint64 / uint64 values. -/
def U64 : Nat := 2 ^ 64

/-- Modulus of uint256 values (Solidity 0.8 checked arithmetic reverts at this bound). -/
def U256 : Nat := 2 ^ 256

/-- Per-account storage of the contract: `_points`, `_lastDice`, `_lastWin`,
`_lastReward`, `_hasActiveRound`, each mapping keyed by the account address. -/
structure Account where
  points : Nat
  lastDice : Nat
  lastWin : Bool
  lastReward : Nat
  hasActiveRound : Bool
  deriving DecidableEq, Repr

/-- Default mapping values: uninitialized encrypted handles decrypt to 0,
`_hasActiveRound` defaults to false. -/
def Account.init : Account :=
  { points := 0, lastDice := 0, lastWin := false, lastReward := 0, hasActiveRound := false }

/-- Which stored handle a decryption grant is for. -/
inductive HandleTag where
  | pointsH
  | diceH
  | winH
  | rewardH
  deriving DecidableEq, Repr

/-- Recipient of a decryption grant: `FHE.allowThis` grants to the contract
itself, `FHE.allow(h, player)` grants to a player. -/
inductive Grantee where
  | contractSelf
  | player (p : Principal)
  deriving DecidableEq, Repr

/-- Full contract state: the five per-account mappings plus the access-grant
log (owner of the handle, which field, who may decrypt). -/
structure ContractState where
  accounts : Principal → Account
  grants : List (Principal × HandleTag × Grantee)

/-- Replace the account record stored for principal `p`. -/
def ContractState.setAccount (s : ContractState) (p : Principal) (a : Account) : ContractState :=
  { accounts := fun q => if q = p then a else s.accounts q, grants := s.grants }

/-- Revert reasons of the contract, plus the Solidity 0.8 checked-arithmetic
panic on uint256 overflow. -/
inductive Err where
  | insufficientPayment
  | activeRoundExists
  | noActiveRound
  | invalidProof
  | arithmeticOverflow
  deriving DecidableEq, Repr

/-- `quotePoints(uint256 weiAmount) = uint64((weiAmount * POINTS_PER_ETH) / 1 ether)`:
the multiplication is checked uint256 arithmetic (reverts on overflow), the
division floors, and the cast to uint64 truncates modulo 2^64. -/
def quotePoints (weiAmount : Nat) : Except Err Nat :=
  if weiAmount * POINTS_PER_ETH < U256 then
    Except.ok (weiAmount * POINTS_PER_ETH / oneEther % U64)
  else
    Except.error Err.arithmeticOverflow

/-- `buyPoints()` called by `p` with `msg.value = weiAmount`: requires
`quotePoints(msg.value) > 0`, homomorphically adds the quote to `_points[p]`
(euint64 addition, wrapping modulo 2^64), and grants decryption of the new
points handle to the contract and to `p`. -/
def buyPoints (p : Principal) (weiAmount : Nat) (s : ContractState) : Except Err ContractState :=
  match quotePoints weiAmount with
  | Except.error e => Except.error e
  | Except.ok pointsToAdd =>
    if 0 < pointsToAdd then
      let acct := s.accounts p
      let s1 := s.setAccount p { acct with points := (acct.points + pointsToAdd) % U64 }
      Except.ok { s1 with grants := s1.grants ++
        [(p, HandleTag.pointsH, Grantee.contractSelf), (p, HandleTag.pointsH, Grantee.player p)] }
    else
      Except.error Err.insufficientPayment

/-- `startGame()` called by `p`, with `randByte` the byte drawn by
`FHE.randEuint8()`: requires no active round, computes
`dice = (randByte % 6) + 1` confidentially, stores it as `_lastDice[p]`, sets
`_hasActiveRound[p] = true`, and grants decryption of the dice handle. -/
def startGame (p : Principal) (randByte : Nat) (s : ContractState) : Except Err ContractState :=
  if (s.accounts p).hasActiveRound = true then
    Except.error Err.activeRoundExists
  else
    let dice := randByte % 6 + 1
    let s1 := s.setAccount p { s.accounts p with lastDice := dice, hasActiveRound := true }
    Except.ok { s1 with grants := s1.grants ++
      [(p, HandleTag.diceH, Grantee.contractSelf), (p, HandleTag.diceH, Grantee.player p)] }

/-- `submitGuess(encryptedGuess, inputProof)` called by `p`: requires an
active round; `FHE.fromExternal` either fails (invalid proof, `none`) or
yields an 8-bit guess; then `diceIsBig = gt(dice, 3)`,
`expected = select(diceIsBig, 1, 2)`, `win = eq(guess, expected)`,
`reward = select(win, WIN_REWARD, 0)`; `_points[p]` is replaced by the
wrapping euint64 sum, `_lastWin`/`_lastReward` stored, the round closed, and
decryption of the three new handles granted. -/
def submitGuess (p : Principal) (guessInput : Option Nat) (s : ContractState) :
    Except Err ContractState :=
  if (s.accounts p).hasActiveRound = false then
    Except.error Err.noActiveRound
  else
    match guessInput with
    | none => Except.error Err.invalidProof
    | some rawGuess =>
      let guess := rawGuess % 256
      let acct := s.accounts p
      let expected : Nat := if 3 < acct.lastDice then 1 else 2
      let win : Bool := decide (guess = expected)
      let reward : Nat := if win then WIN_REWARD else 0
      let s1 := s.setAccount p { acct with
        points := (acct.points + reward) % U64,
        lastWin := win,
        lastReward := reward,
        hasActiveRound := false }
      Except.ok { s1 with grants := s1.grants ++
        [(p, HandleTag.pointsH, Grantee.contractSelf), (p, HandleTag.pointsH, Grantee.player p),
         (p, HandleTag.winH, Grantee.contractSelf), (p, HandleTag.winH, Grantee.player p),
         (p, HandleTag.rewardH, Grantee.contractSelf), (p, HandleTag.rewardH, Grantee.player p)] }

/-- EVM transaction semantics: a successful call commits the new state, a
reverting call leaves the pre-call state untouched. -/
def exec (f : ContractState → Except Err ContractState) (s : ContractState) : ContractState :=
  match f s with
  | Except.ok s1 => s1
  | Except.error _ => s

/-- State in which every account is freshly initialized. -/
def stZero : ContractState := { accounts := fun _ => Account.init, grants := [] }

/-- State in which every account has an active round with dice value 5 and
zero points. -/
def stActive : ContractState :=
  { accounts := fun _ =>
      { points := 0, lastDice := 5, lastWin := false, lastReward := 0, hasActiveRound := true },
    grants := [] }

/-- Claim C4: every successful `startGame` (`openRound`) draws one byte
`b ∈ [0,255]`, stores `dice = b % 6 + 1`, and that dice value lies in
`{1,...,6}`. -/
theorem startGame_dice_range (s : ContractState) (p : Principal) (b : Nat)
    (hb : b ≤ 255) (h : (s.accounts p).hasActiveRound = false) :
    ∃ s1, startGame p b s = Except.ok s1 ∧
      (s1.accounts p).lastDice = b % 6 + 1 ∧
      1 ≤ (s1.accounts p).lastDice ∧ (s1.accounts p).lastDice ≤ 6 ∧
      (s1.accounts p).hasActiveRound = true := by
  have h6 : b % 6 < 6 := Nat.mod_lt _ (by decide)
  simp [startGame, h, ContractState.setAccount]
  omega

/-- Claim C4 witness: instantiation at the fresh state, principal 0,
byte 255. -/
theorem startGame_dice_range_witness :
    ∃ s1, startGame 0 255 stZero = Except.ok s1 ∧
      (s1.accounts 0).lastDice = 255 % 6 + 1 ∧
      1 ≤ (s1.accounts 0).lastDice ∧ (s1.accounts 0).lastDice ≤ 6 ∧
      (s1.accounts 0).hasActiveRound = true :=
  startGame_dice_range stZero 0 255 (by decide) rfl

/-- Claim C3: `startGame` (`openRound`) fails with `ActiveRoundExists` if and
only if the caller's `hasActiveRound` flag is already true; on such a failure
the state is untouched; and after any successful `startGame` the flag is true,
so a second `startGame` without an intervening `submitGuess` fails. -/
theorem startGame_single_round (s : ContractState) (p : Principal) (b b2 : Nat) :
    (startGame p b s = Except.error Err.activeRoundExists ↔
      (s.accounts p).hasActiveRound = true) ∧
    ((s.accounts p).hasActiveRound = true → exec (startGame p b) s = s) ∧
    (∀ s1, startGame p b s = Except.ok s1 →
      (s1.accounts p).hasActiveRound = true ∧
      startGame p b2 s1 = Except.error Err.activeRoundExists) := by
  cases hA : (s.accounts p).hasActiveRound with
  | true =>
    refine ⟨by simp [startGame, hA], fun _ => by simp [exec, startGame, hA], ?_⟩
    intro s1 hs1
    simp [startGame, hA] at hs1
  | false =>
    refine ⟨by simp [startGame, hA], by simp [hA], ?_⟩
    intro s1 hs1
    simp [startGame, hA] at hs1
    have hflag : (s1.accounts p).hasActiveRound = true := by
      rw [← hs1]; simp [ContractState.setAccount]
    exact ⟨hflag, by simp [startGame, hflag]⟩

/-- Claim C3 witness: a second `startGame` right after a successful one fails
with `ActiveRoundExists`, and on the already-active state the failure leaves
the state unchanged. -/
theorem startGame_single_round_witness :
    (startGame 0 7 stActive = Except.error Err.activeRoundExists ∧
      exec (startGame 0 7) stActive = stActive) ∧
    (∀ s1, startGame 0 3 stZero = Except.ok s1 →
      startGame 0 7 s1 = Except.error Err.activeRoundExists) :=
  ⟨⟨(startGame_single_round stActive 0 7 7).1.mpr rfl,
    (startGame_single_round stActive 0 7 7).2.1 rfl⟩,
   fun s1 hs1 => ((startGame_single_round stZero 0 3 7).2.2 s1 hs1).2⟩

/-- Claim C2: `submitGuess` (`resolveGuess`) fails with `NoActiveRound`
whenever the caller's `hasActiveRound` flag is false, and with `InvalidProof`
when ingestion of the external guess fails; in both cases the transaction
reverts, leaving the entire state (balances, round flag, dice, grants)
exactly as before the call. -/
theorem submitGuess_failure_atomic (s : ContractState) (p : Principal) (gi : Option Nat) :
    ((s.accounts p).hasActiveRound = false →
      submitGuess p gi s = Except.error Err.noActiveRound ∧
      exec (submitGuess p gi) s = s) ∧
    ((s.accounts p).hasActiveRound = true →
      submitGuess p none s = Except.error Err.invalidProof ∧
      exec (submitGuess p none) s = s) := by
  constructor
  · intro h
    have he : submitGuess p gi s = Except.error Err.noActiveRound := by
      simp [submitGuess, h]
    exact ⟨he, by simp [exec, he]⟩
  · intro h
    have he : submitGuess p none s = Except.error Err.invalidProof := by
      simp [submitGuess, h]
    exact ⟨he, by simp [exec, he]⟩

/-- Claim C2 witness: both failure modes at concrete states, with the state
returned untouched. -/
theorem submitGuess_failure_atomic_witness :
    (submitGuess 0 (some 1) stZero = Except.error Err.noActiveRound ∧
      exec (submitGuess 0 (some 1)) stZero = stZero) ∧
    (submitGuess 0 none stActive = Except.error Err.invalidProof ∧
      exec (submitGuess 0 none) stActive = stActive) :=
  ⟨(submitGuess_failure_atomic stZero 0 (some 1)).1 rfl,
   (submitGuess_failure_atomic stActive 0 none).2 rfl⟩

/-- State with an active round, dice value 4, and points at the top of the
euint64 range. -/
def stOverflowRound : ContractState :=
  { accounts := fun _ =>
      { points := U64 - 1, lastDice := 4, lastWin := false, lastReward := 0,
        hasActiveRound := true },
    grants := [] }

/-- Claim C1 (amended): for every account with an active round, a successful
`submitGuess` (`resolveGuess`) with 8-bit guess `g` computes
`win = (g = if dice > 3 then 1 else 2)`, `reward = WIN_REWARD` if win else 0,
replaces the points balance by `(points + reward) % 2^64` — an increase of
exactly the reward whenever the 64-bit sum does not wrap, hence unchanged on
a wrong guess for any in-range balance — and clears `hasActiveRound`. -/
theorem submitGuess_resolution (s : ContractState) (p : Principal) (g : Nat)
    (hg : g ≤ 255) (h : (s.accounts p).hasActiveRound = true) :
    ∃ s1, submitGuess p (some g) s = Except.ok s1 ∧
      (s1.accounts p).lastWin =
        decide (g = if 3 < (s.accounts p).lastDice then 1 else 2) ∧
      (s1.accounts p).lastReward =
        (if g = (if 3 < (s.accounts p).lastDice then 1 else 2) then WIN_REWARD else 0) ∧
      (s1.accounts p).points =
        ((s.accounts p).points +
          (if g = (if 3 < (s.accounts p).lastDice then 1 else 2) then WIN_REWARD else 0)) % U64 ∧
      ((s.accounts p).points + WIN_REWARD < U64 →
        (s1.accounts p).points =
          (s.accounts p).points +
            (if g = (if 3 < (s.accounts p).lastDice then 1 else 2) then WIN_REWARD else 0)) ∧
      (s1.accounts p).hasActiveRound = false := by
  have hmod : g % 256 = g := Nat.mod_eq_of_lt (by omega)
  simp [submitGuess, h, hmod, ContractState.setAccount]
  intro hlt
  have hR : (if g = (if 3 < (s.accounts p).lastDice then 1 else 2) then WIN_REWARD else 0)
      ≤ WIN_REWARD := by
    split <;> split <;> simp [WIN_REWARD]
  exact Nat.mod_eq_of_lt (by omega)

/-- Claim C1 witness: on a round with dice 5 (so expected guess 1) and zero
balance, guessing 1 wins, pays 10,000, and closes the round. -/
theorem submitGuess_resolution_witness :
    ∃ s1, submitGuess 0 (some 1) stActive = Except.ok s1 ∧
      (s1.accounts 0).lastWin =
        decide (1 = if 3 < (stActive.accounts 0).lastDice then 1 else 2) ∧
      (s1.accounts 0).lastReward =
        (if 1 = (if 3 < (stActive.accounts 0).lastDice then 1 else 2) then WIN_REWARD else 0) ∧
      (s1.accounts 0).points =
        ((stActive.accounts 0).points +
          (if 1 = (if 3 < (stActive.accounts 0).lastDice then 1 else 2) then WIN_REWARD
           else 0)) % U64 ∧
      ((stActive.accounts 0).points + WIN_REWARD < U64 →
        (s1.accounts 0).points =
          (stActive.accounts 0).points +
            (if 1 = (if 3 < (stActive.accounts 0).lastDice then 1 else 2) then WIN_REWARD
             else 0)) ∧
      (s1.accounts 0).hasActiveRound = false :=
  submitGuess_resolution stActive 0 1 (by decide) rfl

/-- Claim C1 counterexample to the literal statement: with the balance at
`2^64 - 1` and a winning guess, the resolved balance is `9999`, not the old
balance plus the 10,000 reward — the euint64 addition wraps, so the balance
does not always increase by exactly the reward. -/
theorem submitGuess_overflow_cex :
    ((exec (submitGuess 0 (some 1)) stOverflowRound).accounts 0).lastWin = true ∧
    ((exec (submitGuess 0 (some 1)) stOverflowRound).accounts 0).lastReward = WIN_REWARD ∧
    ((exec (submitGuess 0 (some 1)) stOverflowRound).accounts 0).hasActiveRound = false ∧
    ((exec (submitGuess 0 (some 1)) stOverflowRound).accounts 0).points = 9999 ∧
    (stOverflowRound.accounts 0).points + WIN_REWARD ≠ 9999 := by
  refine ⟨rfl, rfl, rfl, ?_, by decide⟩
  show (2 ^ 64 - 1 + 10000) % 2 ^ 64 = 9999
  decide

/-- Claim C8: on an active round, any 8-bit guess other than 1 and 2 loses:
the expected value is always 1 or 2, so `win` is false and the reward is 0. -/
theorem submitGuess_out_of_range_guess (s : ContractState) (p : Principal) (g : Nat)
    (h : (s.accounts p).hasActiveRound = true) (hg : g ≤ 255)
    (h1 : g ≠ 1) (h2 : g ≠ 2) :
    ∃ s1, submitGuess p (some g) s = Except.ok s1 ∧
      (s1.accounts p).lastWin = false ∧
      (s1.accounts p).lastReward = 0 := by
  have hmod : g % 256 = g := Nat.mod_eq_of_lt (by omega)
  have hnw : ¬ (g = if 3 < (s.accounts p).lastDice then 1 else 2) := by
    split <;> assumption
  simp [submitGuess, h, hmod, ContractState.setAccount, hnw]

/-- Claim C8 witness: guessing 7 on an active round loses with reward 0. -/
theorem submitGuess_out_of_range_guess_witness :
    ∃ s1, submitGuess 0 (some 7) stActive = Except.ok s1 ∧
      (s1.accounts 0).lastWin = false ∧
      (s1.accounts 0).lastReward = 0 :=
  submitGuess_out_of_range_guess stActive 0 7 rfl (by decide) (by decide) (by decide)

/-- Claim C9: `startGame` has no balance precondition: an account at the
default encrypted 0 balance with no active round can open a round, and a
correct guess then pays the 10,000 reward, so the balance becomes positive
without any purchase. -/
theorem startGame_no_balance_precondition (s : ContractState) (p : Principal) (b : Nat)
    (hb : b ≤ 255) (hp : (s.accounts p).points = 0)
    (hr : (s.accounts p).hasActiveRound = false) :
    ∃ s1 s2, startGame p b s = Except.ok s1 ∧
      submitGuess p (some (if 3 < (s1.accounts p).lastDice then 1 else 2)) s1 =
        Except.ok s2 ∧
      (s2.accounts p).points = WIN_REWARD ∧
      0 < (s2.accounts p).points := by
  obtain ⟨s1, hok, hdice, hd1, hd6, hflag⟩ := startGame_dice_range s p b hb hr
  have hpts : (s1.accounts p).points = 0 := by
    have : s1 = exec (startGame p b) s := by simp [exec, hok]
    subst this
    simp [exec, startGame, hr, ContractState.setAccount, hp]
  set g : Nat := if 3 < (s1.accounts p).lastDice then 1 else 2 with hgdef
  have hg : g ≤ 255 := by rw [hgdef]; split <;> decide
  obtain ⟨s2, hok2, hwin, hrew, hpts2, hexact, hflag2⟩ :=
    submitGuess_resolution s1 p g hg hflag
  refine ⟨s1, s2, hok, hok2, ?_, ?_⟩
  · rw [hexact (by rw [hpts]; decide)]
    simp [hpts, hgdef]
  · rw [hexact (by rw [hpts]; decide)]
    simp [hpts, hgdef, WIN_REWARD]

/-- Claim C9 witness: from the all-fresh state, principal 0 with byte 0 rolls
dice 1, guesses 2, and ends with 10,000 points having never purchased. -/
theorem startGame_no_balance_precondition_witness :
    ∃ s1 s2, startGame 0 0 stZero = Except.ok s1 ∧
      submitGuess 0 (some (if 3 < (s1.accounts 0).lastDice then 1 else 2)) s1 =
        Except.ok s2 ∧
      (s2.accounts 0).points = WIN_REWARD ∧
      0 < (s2.accounts 0).points :=
  startGame_no_balance_precondition stZero 0 0 (by decide) rfl rfl

/-- State in which every account holds the maximal euint64 points balance
and has no active round. -/
def stMaxPoints : ContractState :=
  { accounts := fun _ =>
      { points := U64 - 1, lastDice := 0, lastWin := false, lastReward := 0,
        hasActiveRound := false },
    grants := [] }

/-- Claim C5 (amended): `buyPoints` (`purchase`) succeeds if and only if the
quote is positive; a zero quote fails with `InsufficientPayment` leaving the
state untouched; and a successful purchase replaces the balance by
`(points + quote) % 2^64` — an increase of exactly the quote whenever the
64-bit sum does not wrap. -/
theorem buyPoints_spec (s : ContractState) (p : Principal) (w : Nat) :
    ((∃ s1, buyPoints p w s = Except.ok s1) ↔
      (∃ v, quotePoints w = Except.ok v ∧ 0 < v)) ∧
    (quotePoints w = Except.ok 0 →
      buyPoints p w s = Except.error Err.insufficientPayment ∧
      exec (buyPoints p w) s = s) ∧
    (∀ v s1, quotePoints w = Except.ok v → buyPoints p w s = Except.ok s1 →
      (s1.accounts p).points = ((s.accounts p).points + v) % U64 ∧
      ((s.accounts p).points + v < U64 →
        (s1.accounts p).points = (s.accounts p).points + v)) := by
  cases hq : quotePoints w with
  | error e =>
    refine ⟨by simp [buyPoints, hq], ?_, ?_⟩
    · intro h0; exact absurd h0 (by simp)
    · intro v s1 hq' _; exact absurd hq' (by simp)
  | ok v =>
    rcases Nat.eq_zero_or_pos v with hv | hv
    · subst hv
      have he : buyPoints p w s = Except.error Err.insufficientPayment := by
        simp [buyPoints, hq]
      refine ⟨by simp [he, hq], fun _ => ⟨he, by simp [exec, he]⟩, ?_⟩
      intro v' s1 _ hok; rw [he] at hok; exact absurd hok (by simp)
    · refine ⟨by simp [buyPoints, hq, hv], ?_, ?_⟩
      · intro h0; simp at h0; omega
      · intro v' s1 hq' hok
        have hv' : v' = v := by simpa using hq'.symm
        subst hv'
        simp [buyPoints, hq, hv] at hok
        rw [← hok]
        simp [ContractState.setAccount]
        intro hlt
        exact Nat.mod_eq_of_lt hlt

/-- Claim C5 witness: 1 wei quotes to 0 points, so `buyPoints` fails with
`InsufficientPayment` and the state is untouched; 1 ether quotes to 100,000
and the purchase from a zero balance lands exactly there. -/
theorem buyPoints_spec_witness :
    (buyPoints 0 1 stZero = Except.error Err.insufficientPayment ∧
      exec (buyPoints 0 1) stZero = stZero) ∧
    (∀ s1, buyPoints 0 oneEther stZero = Except.ok s1 →
      (s1.accounts 0).points = ((stZero.accounts 0).points + 100000) % U64) :=
  ⟨(buyPoints_spec stZero 0 1).2.1 rfl,
   fun s1 hok => ((buyPoints_spec stZero 0 oneEther).2.2 100000 s1 rfl hok).1⟩

/-- Claim C5 counterexample to the literal statement: with the balance at
`2^64 - 1`, a successful 1-ether purchase (quote 100,000) leaves 99,999
points — not the old balance plus 100,000 — because the euint64 addition
wraps. -/
theorem buyPoints_overflow_cex :
    quotePoints oneEther = Except.ok POINTS_PER_ETH ∧
    ((exec (buyPoints 0 oneEther) stMaxPoints).accounts 0).points = 99999 ∧
    (stMaxPoints.accounts 0).points + POINTS_PER_ETH ≠ 99999 := by
  refine ⟨rfl, ?_, by decide⟩
  decide

/-- Claim C6 (amended): `quotePoints` is pure and deterministic;
`quotePoints(1 ether) = 100,000`; and on the grid of exact multiples of
`10^13` wei with quotient below `2^63`, doubling the payment doubles the
quote.  Off that grid the floor division breaks linearity (see the
counterexample). -/
theorem quotePoints_unit_and_grid_linear (k : Nat) (hk : k < 2 ^ 63) :
    quotePoints oneEther = Except.ok POINTS_PER_ETH ∧
    ∃ vx, quotePoints (10 ^ 13 * k) = Except.ok vx ∧
      quotePoints (2 * (10 ^ 13 * k)) = Except.ok (2 * vx) := by
  have e1 : 10 ^ 13 * k * POINTS_PER_ETH = 10 ^ 18 * k := by
    simp only [POINTS_PER_ETH]; ring
  have e2 : 2 * (10 ^ 13 * k) * POINTS_PER_ETH = 10 ^ 18 * (2 * k) := by
    simp only [POINTS_PER_ETH]; ring
  have hbound : ∀ m : Nat, m ≤ 2 * k → 10 ^ 18 * m < U256 := by
    intro m hm
    have hm64 : m ≤ 2 ^ 64 - 1 := by
      have h63 : (2:Nat) * 2 ^ 63 = 2 ^ 64 := by norm_num
      omega
    calc 10 ^ 18 * m ≤ 10 ^ 18 * (2 ^ 64 - 1) := Nat.mul_le_mul_left _ hm64
    _ < U256 := by norm_num [U256]
  have hdiv : ∀ m : Nat, 10 ^ 18 * m / oneEther = m := by
    intro m
    simp only [oneEther]
    exact Nat.mul_div_cancel_left m (by norm_num)
  have hk64 : 2 * k < U64 := by
    have h63 : (2:Nat) * 2 ^ 63 = 2 ^ 64 := by norm_num
    simp only [U64]; omega
  refine ⟨rfl, k, ?_, ?_⟩
  · unfold quotePoints
    rw [if_pos (by rw [e1]; exact hbound k (by omega)), e1, hdiv]
    rw [Nat.mod_eq_of_lt (by omega)]
  · unfold quotePoints
    rw [if_pos (by rw [e2]; exact hbound (2 * k) le_rfl), e2, hdiv]
    rw [Nat.mod_eq_of_lt hk64]

/-- Claim C6 witness: instantiation at k = 3, i.e. x = 3·10^13 wei. -/
theorem quotePoints_unit_and_grid_linear_witness :
    quotePoints oneEther = Except.ok POINTS_PER_ETH ∧
    ∃ vx, quotePoints (10 ^ 13 * 3) = Except.ok vx ∧
      quotePoints (2 * (10 ^ 13 * 3)) = Except.ok (2 * vx) :=
  quotePoints_unit_and_grid_linear 3 (by norm_num)

/-- Claim C6 counterexample to the literal statement: at x = 5·10^12 wei
(no overflow anywhere near), `quotePoints x = 0` but `quotePoints (2x) = 1`,
so `quote(2x) = 2·quote(x)` fails: the floor division is not linear. -/
theorem quotePoints_not_linear_cex :
    quotePoints (5 * 10 ^ 12) = Except.ok 0 ∧
    quotePoints (2 * (5 * 10 ^ 12)) = Except.ok 1 ∧
    (1 : Nat) ≠ 2 * 0 :=
  ⟨rfl, rfl, by decide⟩

/-- Claim C7 (amended): across every operation, each account's points balance
is either left untouched or — only for the caller, on a successful
`buyPoints` or `submitGuess` — replaced by `(points + d) % 2^64` where `d`
is exactly the positive purchase quote, respectively exactly the round
reward computed from the stored dice and the submitted guess; `startGame`
never touches it.  There is no subtraction anywhere, so whenever the 64-bit
addition does not wrap the stored value is monotonically non-decreasing;
the wrap itself can lower it (see the counterexample). -/
theorem points_monotone_mod (s : ContractState) (p q : Principal) (w b : Nat)
    (gi : Option Nat) :
    (((exec (buyPoints p w) s).accounts q).points = (s.accounts q).points ∨
      (q = p ∧ ∃ v, quotePoints w = Except.ok v ∧ 0 < v ∧
        ((exec (buyPoints p w) s).accounts q).points =
          ((s.accounts q).points + v) % U64 ∧
        ((s.accounts q).points + v < U64 →
          (s.accounts q).points ≤ ((exec (buyPoints p w) s).accounts q).points))) ∧
    ((exec (startGame p b) s).accounts q).points = (s.accounts q).points ∧
    (((exec (submitGuess p gi) s).accounts q).points = (s.accounts q).points ∨
      (q = p ∧ ∃ g, gi = some g ∧
        ((exec (submitGuess p gi) s).accounts q).points =
          ((s.accounts q).points +
            (if g % 256 = (if 3 < (s.accounts q).lastDice then 1 else 2)
             then WIN_REWARD else 0)) % U64 ∧
        ((s.accounts q).points + WIN_REWARD < U64 →
          (s.accounts q).points ≤
            ((exec (submitGuess p gi) s).accounts q).points))) := by
  refine ⟨?_, ?_, ?_⟩
  · cases hq : quotePoints w with
    | error e => left; simp [exec, buyPoints, hq]
    | ok v =>
      rcases Nat.eq_zero_or_pos v with hv | hv
      · subst hv; left; simp [exec, buyPoints, hq]
      · by_cases hpq : q = p
        · subst hpq
          right
          have hpts : ((exec (buyPoints q w) s).accounts q).points =
              ((s.accounts q).points + v) % U64 := by
            simp [exec, buyPoints, hq, hv, ContractState.setAccount]
          refine ⟨rfl, v, rfl, hv, hpts, ?_⟩
          intro hlt
          rw [hpts, Nat.mod_eq_of_lt hlt]
          omega
        · left; simp [exec, buyPoints, hq, hv, ContractState.setAccount, hpq]
  · cases hA : (s.accounts p).hasActiveRound with
    | true => simp [exec, startGame, hA]
    | false =>
      by_cases hpq : q = p
      · subst hpq; simp [exec, startGame, hA, ContractState.setAccount]
      · simp [exec, startGame, hA, ContractState.setAccount, hpq]
  · cases hA : (s.accounts p).hasActiveRound with
    | false => left; simp [exec, submitGuess, hA]
    | true =>
      cases gi with
      | none => left; simp [exec, submitGuess, hA]
      | some g =>
        by_cases hpq : q = p
        · subst hpq
          right
          have hpts : ((exec (submitGuess q (some g)) s).accounts q).points =
              ((s.accounts q).points +
                (if g % 256 = (if 3 < (s.accounts q).lastDice then 1 else 2)
                 then WIN_REWARD else 0)) % U64 := by
            simp [exec, submitGuess, hA, ContractState.setAccount]
          refine ⟨rfl, g, rfl, hpts, ?_⟩
          intro hlt
          have hR : ∀ x : Nat, (if g % 256 = x then WIN_REWARD else 0) ≤ WIN_REWARD := by
            intro x
            by_cases hgx : g % 256 = x <;> simp [hgx]
          have hR1 := hR (if 3 < (s.accounts q).lastDice then 1 else 2)
          rw [hpts, Nat.mod_eq_of_lt (by omega)]
          omega
        · left; simp [exec, submitGuess, hA, ContractState.setAccount, hpq]

/-- Claim C7 witness: instantiation at the fresh state, caller 0, a 1-ether
purchase, byte 0, and guess 1. -/
theorem points_monotone_mod_witness :
    (((exec (buyPoints 0 oneEther) stZero).accounts 0).points =
        (stZero.accounts 0).points ∨
      ((0 : Principal) = 0 ∧ ∃ v, quotePoints oneEther = Except.ok v ∧ 0 < v ∧
        ((exec (buyPoints 0 oneEther) stZero).accounts 0).points =
          ((stZero.accounts 0).points + v) % U64 ∧
        ((stZero.accounts 0).points + v < U64 →
          (stZero.accounts 0).points ≤
            ((exec (buyPoints 0 oneEther) stZero).accounts 0).points))) ∧
    ((exec (startGame 0 0) stZero).accounts 0).points = (stZero.accounts 0).points ∧
    (((exec (submitGuess 0 (some 1)) stZero).accounts 0).points =
        (stZero.accounts 0).points ∨
      ((0 : Principal) = 0 ∧ ∃ g, (some 1 : Option Nat) = some g ∧
        ((exec (submitGuess 0 (some 1)) stZero).accounts 0).points =
          ((stZero.accounts 0).points +
            (if g % 256 = (if 3 < (stZero.accounts 0).lastDice then 1 else 2)
             then WIN_REWARD else 0)) % U64 ∧
        ((stZero.accounts 0).points + WIN_REWARD < U64 →
          (stZero.accounts 0).points ≤
            ((exec (submitGuess 0 (some 1)) stZero).accounts 0).points))) :=
  points_monotone_mod stZero 0 0 oneEther 0 (some 1)

/-- Claim C7 counterexample to the literal statement: from the maximal
balance `2^64 - 1`, a successful 1-ether purchase wraps the euint64 addition
and the stored points value strictly decreases. -/
theorem points_decrease_cex :
    ((exec (buyPoints 0 oneEther) stMaxPoints).accounts 0).points <
      (stMaxPoints.accounts 0).points := by
  decide

/-- Claim C10: `quotePoints` truncates to 64 bits — at
`paidAmount = 10^13 · 2^64` the exact quotient `2^64` is returned reduced
modulo `2^64` (as 0), not as itself — while any `paidAmount` whose product
with 100,000 reaches `2^256` makes the checked multiplication revert instead
of returning. -/
theorem quotePoints_truncation (w : Nat) (hw : U256 ≤ w * POINTS_PER_ETH) :
    quotePoints (10 ^ 13 * 2 ^ 64) =
      Except.ok (10 ^ 13 * 2 ^ 64 * POINTS_PER_ETH / oneEther % U64) ∧
    U64 ≤ 10 ^ 13 * 2 ^ 64 * POINTS_PER_ETH / oneEther ∧
    10 ^ 13 * 2 ^ 64 * POINTS_PER_ETH / oneEther % U64 ≠
      10 ^ 13 * 2 ^ 64 * POINTS_PER_ETH / oneEther ∧
    quotePoints w = Except.error Err.arithmeticOverflow := by
  refine ⟨rfl, by decide, by decide, ?_⟩
  unfold quotePoints
  rw [if_neg (not_lt.mpr hw)]

/-- Claim C10 witness: instantiation at `paidAmount = 2^256`, whose product
with 100,000 overflows uint256. -/
theorem quotePoints_truncation_witness :
    quotePoints (10 ^ 13 * 2 ^ 64) =
      Except.ok (10 ^ 13 * 2 ^ 64 * POINTS_PER_ETH / oneEther % U64) ∧
    U64 ≤ 10 ^ 13 * 2 ^ 64 * POINTS_PER_ETH / oneEther ∧
    10 ^ 13 * 2 ^ 64 * POINTS_PER_ETH / oneEther % U64 ≠
      10 ^ 13 * 2 ^ 64 * POINTS_PER_ETH / oneEther ∧
    quotePoints (2 ^ 256) = Except.error Err.arithmeticOverflow :=
  quotePoints_truncation (2 ^ 256) (by decide)

end SecureRoll
